import Mathlib

/-!
Shallow embedding of `moonraker/components/spoolman.py` (class `SpoolManager`).

Python floats are modelled as exact rationals (`ℚ`); machine state mutated by
the component's coroutines is threaded explicitly through a `SpoolState`
record, and every externally visible effect (HTTP requests issued, database
writes, notifications, spawned tasks, log lines subject to suppression) is
returned in an output record alongside the new state.  Remote responses are
supplied as explicit inputs, since the network is an external collaborator.
-/

/-- HTTP response as observed by the component: only the status code is
inspected by `spoolman.py`. -/
structure HttpResponse where
  status_code : Nat
deriving DecidableEq, Repr

/-- Modelled from the spec: the HTTP client collaborator (`http_client.py`,
not under `src/`) provides `HttpResponse.has_error`; the spec's interface
section lists 200 on success and 404 / other 4xx / 5xx as errors, so a
response is an error exactly when its status is at least 400. -/
def HttpResponse.has_error (r : HttpResponse) : Bool :=
  decide (400 ≤ r.status_code)

/-- The mutable fields of `SpoolManager` relevant to accumulation, selection,
flushing and the proxy gate: `spool_id`, `extruded`, `_highest_epos`,
`ws_connected`, `_error_logged` and `last_sync_time` (kept as a rational
time-in-seconds). -/
structure SpoolState where
  spool_id : Option Int
  extruded : ℚ
  highest_epos : ℚ
  ws_connected : Bool
  error_logged : Bool
  last_sync_time : ℚ
deriving DecidableEq, Repr

/-- Accumulation core of `SpoolManager._handle_status_update` (lines
230-233): state is the pair `(extruded, _highest_epos)`.  The Python guard is
`if epos and epos > self._highest_epos`, i.e. the sample must be truthy
(nonzero) and strictly above the highest position seen so far; only then is
the forward delta added and the highest position advanced. -/
def observeSample (acc : ℚ × ℚ) (epos : ℚ) : ℚ × ℚ :=
  if epos ≠ 0 ∧ acc.2 < epos then (acc.1 + (epos - acc.2), epos) else acc

/-- Folding the accumulation step over a sequence of observed samples. -/
def observeAll (acc : ℚ × ℚ) (samples : List ℚ) : ℚ × ℚ :=
  samples.foldl observeSample acc

/-- Spec-side description of accumulation: the sum of all strictly positive
forward deltas of a sample sequence, starting from a given highest
position. -/
def posForwardDeltas (h : ℚ) (samples : List ℚ) : ℚ :=
  match samples with
  | [] => 0
  | p :: rest =>
      if h < p then (p - h) + posForwardDeltas p rest
      else posForwardDeltas h rest

theorem observeAll_eq_deltas (samples : List ℚ) :
    ∀ e h : ℚ, 0 ≤ h →
      observeAll (e, h) samples = (e + posForwardDeltas h samples, samples.foldl max h) := by
  induction samples with
  | nil => intro e h _; simp [observeAll, posForwardDeltas]
  | cons p rest ih =>
      intro e h h0
      by_cases hp : h < p
      · have hpos : 0 < p := lt_of_le_of_lt h0 hp
        have hpne : p ≠ 0 := ne_of_gt hpos
        have hstep : observeSample (e, h) p = (e + (p - h), p) := by
          simp [observeSample, hpne, hp]
        have hfold : observeAll (e, h) (p :: rest) = observeAll (e + (p - h), p) rest := by
          simp [observeAll, List.foldl_cons, hstep]
        rw [hfold, ih (e + (p - h)) p (le_of_lt hpos)]
        simp [posForwardDeltas, hp, max_eq_right (le_of_lt hp), add_assoc, List.foldl_cons]
      · have hstep : observeSample (e, h) p = (e, h) := by
          simp [observeSample, hp]
        have hfold : observeAll (e, h) (p :: rest) = observeAll (e, h) rest := by
          simp [observeAll, List.foldl_cons, hstep]
        rw [hfold, ih e h h0]
        simp [posForwardDeltas, hp, max_eq_left (le_of_not_lt hp), List.foldl_cons]

/-- C1: for every sequence of observed position samples starting from
`highest = 0`, the accumulated `extruded` equals the sum of all strictly
positive forward deltas, and the concrete sequence `[10, 15, 12, 20]` yields
`extruded = 20` with `highest = 20`. -/
theorem spoolman_C1 :
    (∀ samples : List ℚ, (observeAll (0, 0) samples).1 = posForwardDeltas 0 samples) ∧
      observeAll (0, 0) [10, 15, 12, 20] = (20, 20) := by
  constructor
  · intro samples
    rw [observeAll_eq_deltas samples 0 0 le_rfl]
    simp
  · norm_num [observeAll, observeSample]

/-- Output of `SpoolManager.track_filament_usage` (lines 266-305):
the new state, whether a `PUT .../use` request was issued, the amount sent
with it, whether a `set_active_spool(Sentinel.MISSING)` task was spawned by
the 404 branch, and whether the suppressible failure log line was emitted. -/
structure FlushOut where
  state : SpoolState
  requestIssued : Bool
  usedLength : Option ℚ
  clearSpawned : Bool
  logged : Bool
deriving DecidableEq, Repr

/-- `SpoolManager.track_filament_usage`: skip when no spool is selected;
under the extruded lock, issue the usage request only when `extruded > 0`
and the websocket is connected.  A 404 clears the suppression flag and
spawns a clear task; another error logs once while the suppression flag is
unset; success clears both the pending amount and the flag.  The remote
response is an explicit input. -/
def track_filament_usage (s : SpoolState) (resp : HttpResponse) : FlushOut :=
  match s.spool_id with
  | none => ⟨s, false, none, false, false⟩
  | some _ =>
      if s.extruded > 0 ∧ s.ws_connected then
        if resp.has_error then
          if resp.status_code = 404 then
            ⟨{ s with error_logged := false }, true, some s.extruded, true, false⟩
          else if s.error_logged = false then
            ⟨{ s with error_logged := true }, true, some s.extruded, false, true⟩
          else
            ⟨s, true, some s.extruded, false, false⟩
        else
          ⟨{ s with extruded := 0, error_logged := false }, true, some s.extruded, false, false⟩
      else
        ⟨s, false, none, false, false⟩

/-- C2: a flush that receives a failing response other than a 404 leaves the
pending extruded amount (and the selection) unchanged, spawns no clear,
emits the error log exactly when the suppression flag was not yet set, sets
the flag, and a second flush failing the same way logs nothing. -/
theorem spoolman_C2 (s : SpoolState) (resp : HttpResponse) (n : Int)
    (hid : s.spool_id = some n) (hext : s.extruded > 0)
    (hconn : s.ws_connected = true)
    (herr : resp.has_error = true) (h404 : resp.status_code ≠ 404) :
    (track_filament_usage s resp).state.extruded = s.extruded ∧
      (track_filament_usage s resp).state.spool_id = s.spool_id ∧
      (track_filament_usage s resp).clearSpawned = false ∧
      (track_filament_usage s resp).logged = !s.error_logged ∧
      (track_filament_usage s resp).state.error_logged = true ∧
      (track_filament_usage ((track_filament_usage s resp).state) resp).logged = false ∧
      (track_filament_usage ((track_filament_usage s resp).state) resp).state.extruded
        = s.extruded := by
  cases s with
  | mk sid ext hi conn el lst =>
      cases sid with
      | none => cases hid
      | some m =>
          simp only [Option.some.injEq] at hid
          subst hid
          simp only at hext hconn
          subst hconn
          cases el <;>
            simp [track_filament_usage, hext, herr, h404]

/-- Witness for C2 at a concrete state and a 500 response. -/
theorem spoolman_C2_witness :
    (track_filament_usage ⟨some 1, 5, 10, true, false, 0⟩ ⟨500⟩).state.extruded = 5 ∧
      (track_filament_usage ⟨some 1, 5, 10, true, false, 0⟩ ⟨500⟩).logged = true := by
  have h := spoolman_C2 ⟨some 1, 5, 10, true, false, 0⟩ ⟨500⟩ 1 rfl
    (by norm_num) rfl (by rfl) (by norm_num)
  exact ⟨h.1, h.2.2.2.1.trans rfl⟩

/-- C3: a flush is a no-op (state unchanged, no request issued) whenever no
spool is selected, the pending amount is not positive, or the websocket is
not connected. -/
theorem spoolman_C3 (s : SpoolState) (resp : HttpResponse)
    (h : s.spool_id = none ∨ ¬s.extruded > 0 ∨ s.ws_connected = false) :
    track_filament_usage s resp = ⟨s, false, none, false, false⟩ := by
  rcases h with h | h | h
  · simp [track_filament_usage, h]
  · cases hs : s.spool_id with
    | none => simp [track_filament_usage, hs]
    | some m => simp [track_filament_usage, hs, h]
  · cases hs : s.spool_id with
    | none => simp [track_filament_usage, hs]
    | some m => simp [track_filament_usage, hs, h]

/-- Witness for C3: a disconnected state with pending usage flushes nothing. -/
theorem spoolman_C3_witness :
    track_filament_usage ⟨some 1, 5, 10, false, false, 0⟩ ⟨200⟩
      = ⟨⟨some 1, 5, 10, false, false, 0⟩, false, none, false, false⟩ :=
  spoolman_C3 ⟨some 1, 5, 10, false, false, 0⟩ ⟨200⟩ (Or.inr (Or.inr rfl))

/-- Argument of `SpoolManager.set_active_spool`: an integer id, `None`, or
the `Sentinel.MISSING` marker used by the deletion paths. -/
inductive SpoolArg where
  | missing : SpoolArg
  | value : Option Int → SpoolArg
deriving DecidableEq, Repr

/-- Output of `SpoolManager.set_active_spool` (lines 242-264): the new state,
whether `track_filament_usage` was invoked before the swap, whether that
flush issued a request and for which amount, whether the accumulator was
reset instead, the database write and the notification payload (each `none`
when the early return fired). -/
structure SetOut where
  state : SpoolState
  flushCalled : Bool
  flushRequestIssued : Bool
  flushedAmount : Option ℚ
  resetExtruded : Bool
  dbWrite : Option (Option Int)
  notified : Option (Option Int)
deriving DecidableEq, Repr

/-- `SpoolManager.set_active_spool`, run under the spool lock.  `MISSING`
maps to clearing with `deleted_spool = True`; a request equal to the current
selection returns early; otherwise a non-deletion switch away from a real
spool first flushes (the remote response for that flush is the explicit
`resp` input), a switch from no spool to a real spool resets the
accumulator, and finally the id is swapped, persisted and notified. -/
def set_active_spool (s : SpoolState) (arg : SpoolArg) (resp : HttpResponse) : SetOut :=
  let sid : Option Int := match arg with | .missing => none | .value v => v
  let deleted : Bool := match arg with | .missing => true | .value _ => false
  if s.spool_id = sid then
    ⟨s, false, false, none, false, none, none⟩
  else if deleted then
    ⟨{ s with spool_id := sid }, false, false, none, false, some sid, some sid⟩
  else
    match s.spool_id with
    | some _ =>
        let f := track_filament_usage s resp
        ⟨{ f.state with spool_id := sid }, true, f.requestIssued, f.usedLength,
          false, some sid, some sid⟩
    | none =>
        if sid.isSome then
          ⟨{ s with extruded := 0, spool_id := sid }, false, false, none, true,
            some sid, some sid⟩
        else
          ⟨{ s with spool_id := sid }, false, false, none, false, some sid, some sid⟩

/-- Output of `SpoolManager._check_spool_deleted` (lines 178-192): the new
state, whether the `GET /v1/spool/{id}` liveness request was issued, and the
`set_active_spool` output when the 404 branch ran the clear.  On any other
error (or on success) the check only logs. -/
structure CheckOut where
  state : SpoolState
  requestIssued : Bool
  clearRun : Option SetOut
deriving DecidableEq, Repr

/-- `SpoolManager._check_spool_deleted`: fetch the selected spool by id; a
404 awaits `set_active_spool(Sentinel.MISSING)`; other outcomes only log. -/
def check_spool_deleted (s : SpoolState) (resp : HttpResponse) : CheckOut :=
  match s.spool_id with
  | none => ⟨s, false, none⟩
  | some _ =>
      if resp.status_code = 404 then
        let o := set_active_spool s .missing resp
        ⟨o.state, true, some o⟩
      else
        ⟨s, true, none⟩

/-- C4: a 404 on a usage flush spawns the clear task; a 404 on the liveness
check runs the clear; the clear (`set_active_spool(Sentinel.MISSING)`) sets
the selection to `None` exactly once — without flushing — persisting and
notifying that change; repeating it once the id is already `None` is a
complete no-op: no flush, no database write, no notification. -/
theorem spoolman_C4 (s : SpoolState) (resp404 resp2 : HttpResponse) (n : Int)
    (hid : s.spool_id = some n) (h404 : resp404.status_code = 404) :
    (s.extruded > 0 → s.ws_connected = true →
        (track_filament_usage s resp404).clearSpawned = true) ∧
      check_spool_deleted s resp404
        = ⟨{ s with spool_id := none }, true,
            some ⟨{ s with spool_id := none }, false, false, none, false,
              some none, some none⟩⟩ ∧
      set_active_spool s .missing resp404
        = ⟨{ s with spool_id := none }, false, false, none, false,
            some none, some none⟩ ∧
      set_active_spool { s with spool_id := none } .missing resp2
        = ⟨{ s with spool_id := none }, false, false, none, false, none, none⟩ := by
  refine ⟨fun hext hconn => ?_, ?_, ?_, ?_⟩
  · simp [track_filament_usage, hid, hext, hconn, HttpResponse.has_error, h404]
  · simp [check_spool_deleted, set_active_spool, hid, h404]
  · simp [set_active_spool, hid]
  · simp [set_active_spool]

/-- Witness for C4 at a concrete state with spool 7 selected and pending
usage, against a concrete 404 response. -/
theorem spoolman_C4_witness :
    (track_filament_usage ⟨some 7, 3, 9, true, false, 0⟩ ⟨404⟩).clearSpawned = true ∧
      check_spool_deleted ⟨some 7, 3, 9, true, false, 0⟩ ⟨404⟩
        = ⟨⟨none, 3, 9, true, false, 0⟩, true,
            some ⟨⟨none, 3, 9, true, false, 0⟩, false, false, none, false,
              some none, some none⟩⟩ ∧
      set_active_spool ⟨some 7, 3, 9, true, false, 0⟩ .missing ⟨404⟩
        = ⟨⟨none, 3, 9, true, false, 0⟩, false, false, none, false,
            some none, some none⟩ ∧
      set_active_spool ⟨none, 3, 9, true, false, 0⟩ .missing ⟨404⟩
        = ⟨⟨none, 3, 9, true, false, 0⟩, false, false, none, false, none, none⟩ := by
  have h := spoolman_C4 ⟨some 7, 3, 9, true, false, 0⟩ ⟨404⟩ ⟨404⟩ 7 rfl rfl
  exact ⟨h.1 (by norm_num) rfl, h.2.1, h.2.2.1, h.2.2.2⟩

/-- C5 counterexample: switching away from spool 1 with pending usage 5
while the websocket is disconnected leaves the pending amount intact — the
flush is invoked but sends nothing — so spool 2 does not start with zero
pending usage, refuting the claim as universally stated. -/
theorem spoolman_C5_counterexample :
    (set_active_spool ⟨some 1, 5, 10, false, false, 0⟩ (.value (some 2)) ⟨200⟩).state.spool_id
        = some 2 ∧
      (set_active_spool ⟨some 1, 5, 10, false, false, 0⟩ (.value (some 2)) ⟨200⟩).state.extruded
        = 5 ∧
      (set_active_spool ⟨some 1, 5, 10, false, false, 0⟩
          (.value (some 2)) ⟨200⟩).flushRequestIssued = false := by
  refine ⟨?_, ?_, ?_⟩ <;>
    norm_num [set_active_spool, track_filament_usage]

/-- C5 (amended): a non-deletion switch from selected spool A with pending
usage to a different selection B invokes the flush for A before the swap;
when the websocket is connected and the usage request succeeds, the full
pending amount is sent and B starts with zero pending usage.  Switching from
no selection to a real spool resets the accumulator instead of flushing. -/
theorem spoolman_C5 (s t : SpoolState) (resp : HttpResponse) (b : Option Int)
    (n : Int) (hsel : s.spool_id = some n) (hne : b ≠ some n)
    (hext : s.extruded > 0) (hconn : s.ws_connected = true)
    (hok : resp.has_error = false) (htnone : t.spool_id = none) :
    (set_active_spool s (.value b) resp).flushCalled = true ∧
      (set_active_spool s (.value b) resp).flushedAmount = some s.extruded ∧
      (set_active_spool s (.value b) resp).state.spool_id = b ∧
      (set_active_spool s (.value b) resp).state.extruded = 0 ∧
      (set_active_spool t (.value (some n)) resp).flushCalled = false ∧
      (set_active_spool t (.value (some n)) resp).resetExtruded = true ∧
      (set_active_spool t (.value (some n)) resp).state.extruded = 0 ∧
      (set_active_spool t (.value (some n)) resp).state.spool_id = some n := by
  have hne' : ¬(some n = b) := fun h => hne h.symm
  have htne : ¬t.spool_id = some n := by simp [htnone]
  refine ⟨?_, ?_, ?_, ?_, ?_, ?_, ?_, ?_⟩ <;>
    simp [set_active_spool, track_filament_usage, hsel, hne', hext, hconn,
      hok, htnone, htne]

/-- Witness for C5: a connected switch from spool 1 (pending 5) to spool 2
with a 200 response, and a switch from no selection to spool 1. -/
theorem spoolman_C5_witness :
    (set_active_spool ⟨some 1, 5, 10, true, false, 0⟩ (.value (some 2)) ⟨200⟩).flushedAmount
        = some 5 ∧
      (set_active_spool ⟨some 1, 5, 10, true, false, 0⟩
          (.value (some 2)) ⟨200⟩).state.extruded = 0 ∧
      (set_active_spool ⟨none, 4, 10, true, false, 0⟩
          (.value (some 1)) ⟨200⟩).state.extruded = 0 := by
  have h := spoolman_C5 ⟨some 1, 5, 10, true, false, 0⟩ ⟨none, 4, 10, true, false, 0⟩
    ⟨200⟩ (some 2) 1 rfl (by simp) (by norm_num) rfl (by rfl) rfl
  exact ⟨h.2.1, h.2.2.2.1, h.2.2.2.2.2.2.1⟩

/-- C6: selecting the id already selected (including `None` when nothing is
selected) returns early: state unchanged, no flush, no database write, no
notification. -/
theorem spoolman_C6 (s : SpoolState) (v : Option Int) (resp : HttpResponse)
    (h : s.spool_id = v) :
    set_active_spool s (.value v) resp
      = ⟨s, false, false, none, false, none, none⟩ := by
  simp [set_active_spool, h]

/-- Witness for C6: re-selecting spool 4 changes nothing. -/
theorem spoolman_C6_witness :
    set_active_spool ⟨some 4, 2, 8, true, false, 0⟩ (.value (some 4)) ⟨200⟩
      = ⟨⟨some 4, 2, 8, true, false, 0⟩, false, false, none, false, none, none⟩ :=
  spoolman_C6 ⟨some 4, 2, 8, true, false, 0⟩ (some 4) ⟨200⟩ rfl

/-- Errors raised by `SpoolManager._proxy_spoolman_request`; `code` is the
HTTP status attached to the raised server error (`server.error` defaults to
400; the unavailability error is raised with 503, and a forwarded non-success
response surfaces its own status through `raise_for_status`). -/
inductive ProxyError where
  | invalidMethod : String → ProxyError
  | getWithBody : ProxyError
  | invalidPath : ProxyError
  | notAvailable : ProxyError
  | httpError : Nat → ProxyError
deriving DecidableEq, Repr

/-- Status code carried by each proxy error. -/
def ProxyError.code : ProxyError → Nat
  | .notAvailable => 503
  | .httpError st => st
  | _ => 400

/-- The allowed proxy methods, from line 319 of `spoolman.py`. -/
def valid_methods : List String := ["GET", "POST", "PUT", "PATCH", "DELETE"]

/-- Output of `SpoolManager._proxy_spoolman_request` (lines 314-338): the
(unchanged) component state, whether the request was forwarded to the remote
service, and the call's result. -/
structure ProxyOut where
  state : SpoolState
  requestIssued : Bool
  result : Except ProxyError Unit
deriving Repr

/-- `SpoolManager._proxy_spoolman_request`: validate method, GET-body and
path shape, then gate on websocket liveness, then forward; the forwarded
response (an explicit input) is surfaced as an error when non-success. -/
def proxy_spoolman_request (s : SpoolState) (method path : String)
    (body : Option String) (resp : HttpResponse) : ProxyOut :=
  if valid_methods.contains method = false then
    ⟨s, false, .error (.invalidMethod method)⟩
  else if body.isSome ∧ method = "GET" then
    ⟨s, false, .error .getWithBody⟩
  else if path.length < 4 ∨ path.take 4 ≠ "/v1/" then
    ⟨s, false, .error .invalidPath⟩
  else if s.ws_connected = false then
    ⟨s, false, .error .notAvailable⟩
  else if resp.has_error then
    ⟨s, true, .error (.httpError resp.status_code)⟩
  else
    ⟨s, true, .ok ()⟩

/-- C7: the proxy rejects — leaving the state untouched and issuing no
request — any method outside the allowed set, any GET carrying a body, and
any path not starting with "/v1/"; and when validation passes while the
websocket is down it fails fast with the distinct 503 unavailability
error. -/
theorem spoolman_C7 (s : SpoolState) (method path : String)
    (body : Option String) (resp : HttpResponse) :
    (valid_methods.contains method = false →
        proxy_spoolman_request s method path body resp
          = ⟨s, false, .error (.invalidMethod method)⟩) ∧
      (body.isSome → method = "GET" →
        proxy_spoolman_request s method path body resp
          = ⟨s, false, .error .getWithBody⟩) ∧
      (valid_methods.contains method = true → ¬(body.isSome ∧ method = "GET") →
        path.length < 4 ∨ path.take 4 ≠ "/v1/" →
        proxy_spoolman_request s method path body resp
          = ⟨s, false, .error .invalidPath⟩) ∧
      (valid_methods.contains method = true → ¬(body.isSome ∧ method = "GET") →
        ¬(path.length < 4 ∨ path.take 4 ≠ "/v1/") → s.ws_connected = false →
        proxy_spoolman_request s method path body resp
            = ⟨s, false, .error .notAvailable⟩ ∧
          ProxyError.notAvailable.code = 503) ∧
      (valid_methods.contains method = false ∨ (body.isSome ∧ method = "GET") ∨
          path.length < 4 ∨ path.take 4 ≠ "/v1/" ∨ s.ws_connected = false →
        (proxy_spoolman_request s method path body resp).requestIssued = false ∧
          (proxy_spoolman_request s method path body resp).state = s ∧
          ∃ er : ProxyError,
            (proxy_spoolman_request s method path body resp).result = .error er) := by
  refine ⟨fun h1 => ?_, fun hb hm => ?_, fun h1 h2 h3 => ?_, fun h1 h2 h3 h4 => ?_,
    fun h => ?_⟩
  · unfold proxy_spoolman_request
    rw [if_pos h1]
  · subst hm
    simp [proxy_spoolman_request, valid_methods, hb]
  · unfold proxy_spoolman_request
    rw [if_neg (fun hc => Bool.noConfusion (h1.symm.trans hc)), if_neg h2, if_pos h3]
  · refine ⟨?_, rfl⟩
    unfold proxy_spoolman_request
    rw [if_neg (fun hc => Bool.noConfusion (h1.symm.trans hc)), if_neg h2,
      if_neg h3, if_pos h4]
  · unfold proxy_spoolman_request
    split_ifs with w1 w2 w3 w4 w5 <;>
      first
        | exact ⟨rfl, rfl, _, rfl⟩
        | (rcases h with h | h | h | h | h
           · exact absurd h w1
           · exact absurd h w2
           · exact absurd (Or.inl h) w3
           · exact absurd (Or.inr h) w3
           · exact absurd h w4)

/-- Witness for C7: a HEAD request, a GET with a body, a bad path, and a
valid call while disconnected, all at concrete inputs. -/
theorem spoolman_C7_witness :
    proxy_spoolman_request ⟨some 1, 0, 0, false, false, 0⟩ "HEAD" "/v1/spool/1" none ⟨200⟩
        = ⟨⟨some 1, 0, 0, false, false, 0⟩, false, .error (.invalidMethod "HEAD")⟩ ∧
      proxy_spoolman_request ⟨some 1, 0, 0, false, false, 0⟩ "GET" "/v1/spool/1"
          (some "x") ⟨200⟩
        = ⟨⟨some 1, 0, 0, false, false, 0⟩, false, .error .getWithBody⟩ ∧
      proxy_spoolman_request ⟨some 1, 0, 0, false, false, 0⟩ "GET" "/spool/1" none ⟨200⟩
        = ⟨⟨some 1, 0, 0, false, false, 0⟩, false, .error .invalidPath⟩ ∧
      proxy_spoolman_request ⟨some 1, 0, 0, false, false, 0⟩ "GET" "/v1/spool/1" none ⟨200⟩
        = ⟨⟨some 1, 0, 0, false, false, 0⟩, false, .error .notAvailable⟩ := by
  refine ⟨?_, ?_, ?_, ?_⟩
  · exact (spoolman_C7 ⟨some 1, 0, 0, false, false, 0⟩ "HEAD" "/v1/spool/1" none ⟨200⟩).1
      (by decide)
  · exact (spoolman_C7 ⟨some 1, 0, 0, false, false, 0⟩ "GET" "/v1/spool/1"
      (some "x") ⟨200⟩).2.1 rfl rfl
  · exact (spoolman_C7 ⟨some 1, 0, 0, false, false, 0⟩ "GET" "/spool/1" none ⟨200⟩).2.2.1
      (by decide) (by simp) (by decide)
  · exact ((spoolman_C7 ⟨some 1, 0, 0, false, false, 0⟩ "GET" "/v1/spool/1"
      none ⟨200⟩).2.2.2.1 (by decide) (by simp) (by decide) rfl).1

/-- A JSON value as returned by `jsonw.loads`: numbers are kept as exact
rationals (covering JSON integers and floats, which Python compares
numerically) and objects as key-value association lists. -/
inductive Json where
  | null : Json
  | bool : Bool → Json
  | num : ℚ → Json
  | str : String → Json
  | arr : List Json → Json
  | obj : List (String × Json) → Json

/-- One inbound text frame at the entry of `_decode_message`: either the
text is not valid JSON — `jsonw.loads` raises a decode error at line 165 —
or it decodes to a JSON value. -/
inductive ParsedText where
  | malformed : ParsedText
  | value : Json → ParsedText

/-- The exceptions `_decode_message` can raise: the decode failure from
`jsonw.loads` on malformed text (line 165), or an `AttributeError` from
calling `.get` on a value that is not a dict — a non-object frame at line
166, or a non-object payload at line 170. -/
inductive DecodeError where
  | jsonDecodeError : DecodeError
  | attributeError : DecodeError
deriving DecidableEq, Repr

/-- Python equality between `d.get(k)` (an optional JSON value) and a
string literal: true exactly when the value is that string. -/
def jsonIsStr (v : Option Json) (s : String) : Bool :=
  match v with
  | some (.str t) => t == s
  | _ => false

/-- Python equality between `d.get(k)` and the integer `n`: JSON numbers
compare numerically (in Python `3.0 == 3` holds) and JSON booleans equal 0
and 1; an absent key (`None`), null, strings and containers never equal an
integer. -/
def jsonEqInt (v : Option Json) (n : Int) : Bool :=
  match v with
  | some (.num q) => decide (q = (n : ℚ))
  | some (.bool b) => decide ((if b then (1 : ℚ) else 0) = (n : ℚ))
  | _ => false

/-- `SpoolManager._decode_message` (lines 164-171) on one inbound text
frame: `.ok spawned` when the function returns normally, where `spawned`
says whether the fire-and-forget `set_active_spool(Sentinel.MISSING)` task
was created, and `.error e` when it raises.  It mirrors the source order:
parse (line 165); compare `event.get("resource")` with "spool" — which
raises `AttributeError` on a non-object frame (line 166); then, only with a
spool selected and `event.get("type") == "deleted"` (line 168, so a bad
payload is never touched when no spool is selected), read
`event.get("payload", {})` (line 169) and compare `payload.get("id")` with
the selected id (line 170), which raises `AttributeError` when a payload
value is present and is not a dict. -/
def decode_message (s : SpoolState) (msg : ParsedText) : Except DecodeError Bool :=
  match msg with
  | .malformed => .error .jsonDecodeError
  | .value (.obj fields) =>
      if jsonIsStr (fields.lookup "resource") "spool" = false then .ok false
      else
        match s.spool_id with
        | none => .ok false
        | some n =>
            if jsonIsStr (fields.lookup "type") "deleted" = true then
              match (fields.lookup "payload").getD (Json.obj []) with
              | .obj pfields =>
                  if jsonEqInt (pfields.lookup "id") n = true then .ok true
                  else .ok false
              | _ => .error .attributeError
            else .ok false
  | .value _ => .error .attributeError

theorem decode_message_nonobj (s : SpoolState) (j : Json)
    (hj : ∀ fields, j ≠ Json.obj fields) :
    decode_message s (.value j) = .error .attributeError := by
  cases j with
  | obj fields => exact absurd rfl (hj fields)
  | null => rfl
  | bool b => rfl
  | num q => rfl
  | str t => rfl
  | arr l => rfl

theorem decode_message_nonobj_iffs (s : SpoolState) (j : Json)
    (hj : ∀ fields, j ≠ Json.obj fields) :
    (decode_message s (.value j) = .ok true ↔
      ∃ fields n, ParsedText.value j = .value (.obj fields) ∧
        jsonIsStr (fields.lookup "resource") "spool" = true ∧
        s.spool_id = some n ∧
        jsonIsStr (fields.lookup "type") "deleted" = true ∧
        ∃ pfields, (fields.lookup "payload").getD (Json.obj []) = .obj pfields ∧
          jsonEqInt (pfields.lookup "id") n = true) ∧
    ((∃ e, decode_message s (.value j) = .error e) ↔
      ParsedText.value j = .malformed ∨
        (∃ k, ParsedText.value j = .value k ∧ ∀ fields, k ≠ Json.obj fields) ∨
        ∃ fields n, ParsedText.value j = .value (.obj fields) ∧
          jsonIsStr (fields.lookup "resource") "spool" = true ∧
          s.spool_id = some n ∧
          jsonIsStr (fields.lookup "type") "deleted" = true ∧
          ∀ pfields, (fields.lookup "payload").getD (Json.obj []) ≠ .obj pfields) := by
  constructor
  · constructor
    · intro h
      rw [decode_message_nonobj s j hj] at h
      exact Except.noConfusion h
    · rintro ⟨fields, n, hmsg, -⟩
      exact absurd (ParsedText.value.inj hmsg) (hj fields)
  · constructor
    · intro h2
      exact Or.inr (Or.inl ⟨j, rfl, hj⟩)
    · intro h2
      exact ⟨.attributeError, decode_message_nonobj s j hj⟩

/-- C8 counterexample: with spool 1 selected, the well-formed frame
`{"resource": "spool", "type": "deleted", "payload": 3}` reaches
`payload.get("id")` and raises `AttributeError` (line 170); a valid-JSON
non-object frame raises `AttributeError` at `event.get` (line 166); and a
malformed frame raises inside `jsonw.loads` (line 165) — none of them is
silently ignored, refuting the no-raise conjunct of the claim. -/
theorem spoolman_C8_counterexample :
    decode_message ⟨some 1, 0, 0, true, false, 0⟩
        (.value (.obj [("resource", .str "spool"), ("type", .str "deleted"),
          ("payload", .num 3)]))
      = .error .attributeError ∧
    decode_message ⟨some 1, 0, 0, true, false, 0⟩ (.value (.arr []))
      = .error .attributeError ∧
    decode_message ⟨some 1, 0, 0, true, false, 0⟩ .malformed
      = .error .jsonDecodeError := by
  refine ⟨?_, rfl, rfl⟩
  rfl

/-- C8 (amended): the decoder spawns the asynchronous clear exactly when
the frame is a JSON object whose resource field is "spool", a spool is
selected, the type field is "deleted", and the payload is an object whose
id equals the selected spool id; and it raises exactly on a malformed
frame, a frame whose JSON is not an object, or — with a spool selected,
resource "spool" and type "deleted" — a payload value that is not an
object.  Every other message shape, unknown fields and types included, is
ignored without raising. -/
theorem spoolman_C8 (s : SpoolState) (msg : ParsedText) :
    (decode_message s msg = .ok true ↔
      ∃ fields n, msg = .value (.obj fields) ∧
        jsonIsStr (fields.lookup "resource") "spool" = true ∧
        s.spool_id = some n ∧
        jsonIsStr (fields.lookup "type") "deleted" = true ∧
        ∃ pfields, (fields.lookup "payload").getD (Json.obj []) = .obj pfields ∧
          jsonEqInt (pfields.lookup "id") n = true) ∧
    ((∃ e, decode_message s msg = .error e) ↔
      msg = .malformed ∨
        (∃ k, msg = .value k ∧ ∀ fields, k ≠ Json.obj fields) ∨
        ∃ fields n, msg = .value (.obj fields) ∧
          jsonIsStr (fields.lookup "resource") "spool" = true ∧
          s.spool_id = some n ∧
          jsonIsStr (fields.lookup "type") "deleted" = true ∧
          ∀ pfields, (fields.lookup "payload").getD (Json.obj []) ≠ .obj pfields) := by
  cases msg with
  | malformed =>
      refine ⟨⟨fun h => Except.noConfusion h, ?_⟩,
        ⟨fun h2 => Or.inl rfl, fun h2 => ⟨.jsonDecodeError, rfl⟩⟩⟩
      rintro ⟨fields, n, hmsg, -⟩
      exact ParsedText.noConfusion hmsg
  | value j =>
      cases j with
      | null => exact decode_message_nonobj_iffs s .null (fun fields h => Json.noConfusion h)
      | bool b => exact decode_message_nonobj_iffs s (.bool b) (fun fields h => Json.noConfusion h)
      | num q => exact decode_message_nonobj_iffs s (.num q) (fun fields h => Json.noConfusion h)
      | str t => exact decode_message_nonobj_iffs s (.str t) (fun fields h => Json.noConfusion h)
      | arr l => exact decode_message_nonobj_iffs s (.arr l) (fun fields h => Json.noConfusion h)
      | obj fields =>
          cases hres : jsonIsStr (fields.lookup "resource") "spool" with
          | false =>
              have hdec : decode_message s (.value (.obj fields)) = .ok false := by
                simp [decode_message, hres]
              rw [hdec]
              constructor
              · constructor
                · intro h
                  exact Bool.noConfusion (Except.ok.inj h)
                · rintro ⟨fields2, n2, hmsg, hres2, -⟩
                  cases Json.obj.inj (ParsedText.value.inj hmsg)
                  exact Bool.noConfusion (hres.symm.trans hres2)
              · constructor
                · rintro ⟨e, he⟩
                  exact Except.noConfusion he
                · rintro (hmsg | ⟨k, hmsg, hk⟩ | ⟨fields2, n2, hmsg, hres2, -⟩)
                  · exact ParsedText.noConfusion hmsg
                  · exact absurd (ParsedText.value.inj hmsg).symm (hk fields)
                  · cases Json.obj.inj (ParsedText.value.inj hmsg)
                    exact Bool.noConfusion (hres.symm.trans hres2)
          | true =>
              cases hsid : s.spool_id with
              | none =>
                  have hdec : decode_message s (.value (.obj fields)) = .ok false := by
                    simp [decode_message, hres, hsid]
                  rw [hdec]
                  constructor
                  · constructor
                    · intro h
                      exact Bool.noConfusion (Except.ok.inj h)
                    · rintro ⟨fields2, n2, hmsg, -, hsid2, -⟩
                      exact Option.noConfusion hsid2
                  · constructor
                    · rintro ⟨e, he⟩
                      exact Except.noConfusion he
                    · rintro (hmsg | ⟨k, hmsg, hk⟩ | ⟨fields2, n2, hmsg, -, hsid2, -⟩)
                      · exact ParsedText.noConfusion hmsg
                      · exact absurd (ParsedText.value.inj hmsg).symm (hk fields)
                      · exact Option.noConfusion hsid2
              | some n =>
                  cases htype : jsonIsStr (fields.lookup "type") "deleted" with
                  | false =>
                      have hdec : decode_message s (.value (.obj fields)) = .ok false := by
                        simp [decode_message, hres, hsid, htype]
                      rw [hdec]
                      constructor
                      · constructor
                        · intro h
                          exact Bool.noConfusion (Except.ok.inj h)
                        · rintro ⟨fields2, n2, hmsg, -, -, htype2, -⟩
                          cases Json.obj.inj (ParsedText.value.inj hmsg)
                          exact Bool.noConfusion (htype.symm.trans htype2)
                      · constructor
                        · rintro ⟨e, he⟩
                          exact Except.noConfusion he
                        · rintro (hmsg | ⟨k, hmsg, hk⟩ | ⟨fields2, n2, hmsg, -, -, htype2, -⟩)
                          · exact ParsedText.noConfusion hmsg
                          · exact absurd (ParsedText.value.inj hmsg).symm (hk fields)
                          · cases Json.obj.inj (ParsedText.value.inj hmsg)
                            exact Bool.noConfusion (htype.symm.trans htype2)
                  | true =>
                      cases hpay : (fields.lookup "payload").getD (Json.obj [])
                      case obj pfields =>
                        cases hid : jsonEqInt (pfields.lookup "id") n with
                        | true =>
                            have hdec : decode_message s (.value (.obj fields)) = .ok true := by
                              simp [decode_message, hres, hsid, htype, hpay, hid]
                            rw [hdec]
                            constructor
                            · exact ⟨fun h => ⟨fields, n, rfl, hres, rfl, htype,
                                pfields, hpay, hid⟩, fun h => rfl⟩
                            · constructor
                              · rintro ⟨e, he⟩
                                exact Except.noConfusion he
                              · rintro (hmsg | ⟨k, hmsg, hk⟩ |
                                  ⟨fields2, n2, hmsg, -, -, -, hpaynone⟩)
                                · exact ParsedText.noConfusion hmsg
                                · exact absurd (ParsedText.value.inj hmsg).symm (hk fields)
                                · cases Json.obj.inj (ParsedText.value.inj hmsg)
                                  exact absurd hpay (hpaynone pfields)
                        | false =>
                            have hdec : decode_message s (.value (.obj fields)) = .ok false := by
                              simp [decode_message, hres, hsid, htype, hpay, hid]
                            rw [hdec]
                            constructor
                            · constructor
                              · intro h
                                exact Bool.noConfusion (Except.ok.inj h)
                              · rintro ⟨fields2, n2, hmsg, -, hsid2, -,
                                  pfields2, hpay2, hid2⟩
                                cases Json.obj.inj (ParsedText.value.inj hmsg)
                                cases Option.some.inj hsid2
                                cases Json.obj.inj (hpay.symm.trans hpay2)
                                exact Bool.noConfusion (hid.symm.trans hid2)
                            · constructor
                              · rintro ⟨e, he⟩
                                exact Except.noConfusion he
                              · rintro (hmsg | ⟨k, hmsg, hk⟩ |
                                  ⟨fields2, n2, hmsg, -, -, -, hpaynone⟩)
                                · exact ParsedText.noConfusion hmsg
                                · exact absurd (ParsedText.value.inj hmsg).symm (hk fields)
                                · cases Json.obj.inj (ParsedText.value.inj hmsg)
                                  exact absurd hpay (hpaynone pfields)
                      all_goals
                        (have hdec : decode_message s (.value (.obj fields))
                            = .error .attributeError := by
                          simp [decode_message, hres, hsid, htype, hpay]
                         rw [hdec]
                         refine ⟨⟨fun h => Except.noConfusion h, ?_⟩,
                           ⟨fun h2 => Or.inr (Or.inr ⟨fields, n, rfl, hres, rfl, htype,
                             fun pf hpf => Json.noConfusion (hpay.symm.trans hpf)⟩),
                            fun h2 => ⟨.attributeError, rfl⟩⟩⟩
                         rintro ⟨fields2, n2, hmsg, -, -, -, pfields2, hpay2, -⟩
                         cases Json.obj.inj (ParsedText.value.inj hmsg)
                         exact Json.noConfusion (hpay.symm.trans hpay2))

/-- `SpoolManager._eposition_from_status` (lines 224-226): the toolhead
position list resolved from the status payload (empty when the keys are
absent); the extruder position is element 3 when the list is long enough. -/
def eposition_from_status (position : List ℚ) : Option ℚ :=
  position[3]?

/-- Output of `SpoolManager._handle_status_update` (lines 228-240): the new
state, whether the sync branch ran `track_filament_usage`, and that flush's
output when it did. -/
structure StatusOut where
  state : SpoolState
  flushTriggered : Bool
  flushOut : Option FlushOut
deriving DecidableEq, Repr

/-- `SpoolManager._handle_status_update`: extract the extruder position; if
it is truthy and above the highest seen, accumulate under the lock, then —
only inside that same branch — compare the elapsed time against the
configured `sync_rate` and, when strictly exceeded, stamp the sync time and
flush.  `now` is the wall-clock instant of the call and `resp` the remote
response used if the flush sends. -/
def handle_status_update (sync_rate : ℤ) (s : SpoolState) (position : List ℚ)
    (now : ℚ) (resp : HttpResponse) : StatusOut :=
  match eposition_from_status position with
  | none => ⟨s, false, none⟩
  | some epos =>
      if epos ≠ 0 ∧ s.highest_epos < epos then
        let s1 : SpoolState :=
          { s with extruded := s.extruded + (epos - s.highest_epos),
                   highest_epos := epos }
        if (sync_rate : ℚ) < now - s.last_sync_time then
          let s2 : SpoolState := { s1 with last_sync_time := now }
          let f := track_filament_usage s2 resp
          ⟨f.state, true, some f⟩
        else ⟨s1, false, none⟩
      else ⟨s, false, none⟩

/-- C9 counterexample: with `sync_rate = 5` and 100 seconds elapsed since
the last flush, a status update whose sample (12) does not exceed the
highest position (15) triggers no flush at all — the elapsed-interval check
lives inside the new-highest-sample branch, so no timer fires independently
of sample arrival, refuting the claim as stated. -/
theorem spoolman_C9_counterexample :
    (100 : ℚ) - (0 : ℚ) > (5 : ℤ) ∧
      handle_status_update 5 ⟨some 1, 3, 15, true, false, 0⟩ [0, 0, 0, 12] 100 ⟨200⟩
        = ⟨⟨some 1, 3, 15, true, false, 0⟩, false, none⟩ := by
  constructor
  · norm_num
  · norm_num [handle_status_update, eposition_from_status]

/-- C9 (amended): the sync check runs only inside the position-sample
handler: a flush is triggered exactly when the arriving sample is nonzero
and strictly above the highest position seen, and strictly more than the
configured interval has elapsed since the last flush trigger; elapsed time
alone, without such a sample, never triggers a flush. -/
theorem spoolman_C9 (sync_rate : ℤ) (s : SpoolState) (position : List ℚ)
    (now : ℚ) (resp : HttpResponse) :
    (handle_status_update sync_rate s position now resp).flushTriggered = true ↔
      ∃ epos : ℚ, eposition_from_status position = some epos ∧ epos ≠ 0 ∧
        s.highest_epos < epos ∧ (sync_rate : ℚ) < now - s.last_sync_time := by
  cases hp : eposition_from_status position with
  | none => simp [handle_status_update, hp]
  | some epos =>
      by_cases h1 : epos ≠ 0 ∧ s.highest_epos < epos
      · by_cases h2 : (sync_rate : ℚ) < now - s.last_sync_time
        · simp [handle_status_update, hp, h1, h2, h1.1, h1.2]
        · simp [handle_status_update, hp, h1, h2]
      · simp only [handle_status_update, hp, if_neg h1]
        simp only [not_and_or] at h1
        rcases h1 with h1 | h1 <;> simp [h1]

/-- `SpoolManager._handle_klippy_ready` (lines 200-210): subscribe to the
toolhead position feed (the subscription result's position list is the
input); seed the highest position from the initial extruder position when it
can be read, otherwise raise a server error. -/
def handle_klippy_ready (s : SpoolState) (position : List ℚ) :
    Except String SpoolState :=
  match eposition_from_status position with
  | some e => .ok { s with highest_epos := e }
  | none => .error "Unable to subscribe to e position"

/-- C10: at klippy-ready time the highest position is seeded from element 3
of the reported position when present — so re-observing that same initial
position contributes zero usage — and when the initial position cannot be
read the handler raises a server error rather than starting from zero. -/
theorem spoolman_C10 (s : SpoolState) (position : List ℚ)
    (hlen : 3 < position.length) :
    handle_klippy_ready s position
        = .ok { s with highest_epos := position.get ⟨3, hlen⟩ } ∧
      observeSample ((0 : ℚ), position.get ⟨3, hlen⟩) (position.get ⟨3, hlen⟩)
        = (0, position.get ⟨3, hlen⟩) ∧
      ∀ (t : SpoolState) (short : List ℚ), short.length ≤ 3 →
        handle_klippy_ready t short = .error "Unable to subscribe to e position" := by
  refine ⟨?_, ?_, fun t short hshort => ?_⟩
  · unfold handle_klippy_ready eposition_from_status
    rw [List.getElem?_eq_getElem hlen]
    rfl
  · simp [observeSample]
  · unfold handle_klippy_ready eposition_from_status
    rw [List.getElem?_eq_none (by omega)]

/-- Witness for C10: position `[0, 0, 0, 7]` seeds the highest position with
7, and an empty position list raises the error. -/
theorem spoolman_C10_witness :
    handle_klippy_ready ⟨none, 0, 0, false, false, 0⟩ [0, 0, 0, 7]
        = .ok ⟨none, 0, 7, false, false, 0⟩ ∧
      handle_klippy_ready ⟨none, 0, 0, false, false, 0⟩ []
        = .error "Unable to subscribe to e position" := by
  have h := spoolman_C10 ⟨none, 0, 0, false, false, 0⟩ [0, 0, 0, 7] (by norm_num)
  exact ⟨h.1.trans rfl, h.2.2 ⟨none, 0, 0, false, false, 0⟩ [] (by norm_num)⟩
